import Mathlib

/-!
A shallow embedding of `crates/valence/src/equipment.rs` (the equipment
state store and its differential broadcast pass), together with theorems
checking the natural-language specification against it.

Machine integers are modelled as `Nat` (for `u8`/`usize`) and `Int`
(for `i8`); wrap-around casts carry an explicit `% 256`.  The item payload
type (`ItemStack`, defined in the external `valence_protocol` crate) is
opaque to this file and is modelled by a type parameter `Item`.
-/

/-- Rust: `pub const EQUIPMENT_SLOTS: usize = 6;` -/
def EQUIPMENT_SLOTS : Nat := 6

/-- Rust: `pub enum EquipmentSlot { MainHand, OffHand, Boots, Leggings, Chestplate, Helmet }` -/
inductive EquipmentSlot : Type where
  | MainHand
  | OffHand
  | Boots
  | Leggings
  | Chestplate
  | Helmet
deriving DecidableEq, Repr

/-- Rust: `impl From<EquipmentSlot> for u8` (equipment.rs, wire slot codes). -/
def EquipmentSlot.toU8 : EquipmentSlot → Nat
  | .MainHand => 0
  | .OffHand => 1
  | .Boots => 2
  | .Leggings => 3
  | .Chestplate => 4
  | .Helmet => 5

/-- Rust: `impl From<EquipmentSlot> for i8` (`EquipmentSlot::from(slot) as i8`;
the `u8` code is 0–5 so the cast to `i8` is value-preserving). -/
def EquipmentSlot.toI8 (slot : EquipmentSlot) : Int :=
  (slot.toU8 : Int)

/-- Rust: `impl From<EquipmentSlot> for usize` (`EquipmentSlot::from(slot) as usize`). -/
def EquipmentSlot.toUsize (slot : EquipmentSlot) : Nat :=
  slot.toU8

/-- Rust: `impl TryFrom<u8> for EquipmentSlot`; `id` is a `u8`, modelled as a
`Nat` below `256`.  Returns `Err("Invalid value")` outside 0–5. -/
def EquipmentSlot.tryFromU8 (id : Nat) : Except String EquipmentSlot :=
  match id with
  | 0 => .ok .MainHand
  | 1 => .ok .OffHand
  | 2 => .ok .Boots
  | 3 => .ok .Leggings
  | 4 => .ok .Chestplate
  | 5 => .ok .Helmet
  | _ => .error "Invalid value"

/-- Rust: `impl TryFrom<usize> for EquipmentSlot`, i.e.
`EquipmentSlot::try_from(id as u8)`; the `usize → u8` cast truncates
modulo 256. -/
def EquipmentSlot.tryFromUsize (id : Nat) : Except String EquipmentSlot :=
  EquipmentSlot.tryFromU8 (id % 256)

/-- Rust: `impl TryFrom<i8> for EquipmentSlot`, i.e.
`EquipmentSlot::try_from(id as u8)`; the `i8 → u8` cast is reduction
modulo 256 (a negative `i8` value `x` becomes `x + 256`). -/
def EquipmentSlot.tryFromI8 (id : Int) : Except String EquipmentSlot :=
  EquipmentSlot.tryFromU8 ((id % 256).toNat)

/-- Rust: `EquipmentEntry { slot: i8, item: Option<ItemStack> }`
(from `valence_protocol`, the payload of one diff entry). -/
structure EquipmentEntry (Item : Type) : Type where
  slot : Int
  item : Option Item
deriving DecidableEq, Repr

/-- Rust: `pub struct Equipments { equipments: [Option<Box<EquipmentEntry>>; 6],
modified_slots: u8 }`.  The fixed-size array is modelled as a list (length 6
for every state Rust can construct, since the fields are private);
`modified_slots` is a `u8` bit set, modelled as a `Nat`. -/
structure Equipments (Item : Type) : Type where
  equipments : List (Option (EquipmentEntry Item))
  modified_slots : Nat
deriving DecidableEq, Repr

namespace Equipments

variable {Item : Type}

/-- Rust: `Equipments::new()`, i.e. `Equipments::default()`:
all six slots `None`, `modified_slots = 0`. -/
def new : Equipments Item :=
  { equipments := [none, none, none, none, none, none], modified_slots := 0 }

/-- Rust: `fn set_modified_slot(&mut self, slot)`:
`self.modified_slots |= 1 << shifts` with `shifts = slot.into()`. -/
def set_modified_slot (e : Equipments Item) (slot : EquipmentSlot) : Equipments Item :=
  { e with modified_slots := e.modified_slots ||| (1 <<< slot.toUsize) }

/-- Rust: `pub fn set(&mut self, item, slot)`: stores
`Some(EquipmentEntry { slot: slot_idx as i8, item: Some(item) })` at
`slot_idx = slot.into()`, then calls `set_modified_slot(slot)`. -/
def set (e : Equipments Item) (item : Item) (slot : EquipmentSlot) : Equipments Item :=
  set_modified_slot
    { e with
      equipments :=
        e.equipments.set slot.toUsize
          (some { slot := (slot.toUsize : Int), item := some item }) }
    slot

/-- The `i8 → u8` cast `equip.slot as u8` used by `clear`. -/
def i8AsU8 (x : Int) : Nat :=
  (x % 256).toNat

/-- The loop body of Rust `Equipments::clear`: walks the slot array; for each
occupied slot it ORs `1 << (equip.slot as u8)` into the mask and empties the
slot.  (The `u8` shift masks its amount to the type width; every entry a
reachable state stores has `slot` in 0–5, where the mask is inert.) -/
def clearAux : List (Option (EquipmentEntry Item)) → Nat →
    List (Option (EquipmentEntry Item)) × Nat
  | [], m => ([], m)
  | none :: rest, m =>
    (none :: (clearAux rest m).1, (clearAux rest m).2)
  | some equip :: rest, m =>
    (none :: (clearAux rest (m ||| (1 <<< (i8AsU8 equip.slot % 8)))).1,
     (clearAux rest (m ||| (1 <<< (i8AsU8 equip.slot % 8)))).2)

/-- Rust: `pub fn clear(&mut self)`. -/
def clear (e : Equipments Item) : Equipments Item :=
  { equipments := (clearAux e.equipments e.modified_slots).1,
    modified_slots := (clearAux e.equipments e.modified_slots).2 }

/-- Rust: `pub fn remove(&mut self, slot) -> Option<EquipmentEntry>`:
`take()`s the slot; if it was occupied, marks the slot modified and returns
the previous entry, else returns `None` and changes nothing. -/
def remove (e : Equipments Item) (slot : EquipmentSlot) :
    Option (EquipmentEntry Item) × Equipments Item :=
  match e.equipments.getD slot.toUsize none with
  | some equipment =>
    (some equipment,
      set_modified_slot { e with equipments := e.equipments.set slot.toUsize none } slot)
  | none => (none, e)

/-- Rust: `pub fn get(&self, slot) -> Option<Box<EquipmentEntry>>`
(a clone of the stored entry; no side effect). -/
def get (e : Equipments Item) (slot : EquipmentSlot) : Option (EquipmentEntry Item) :=
  e.equipments.getD slot.toUsize none

/-- Rust: `pub fn is_empty(&self) -> bool { self.equipments.is_empty() }` —
this asks whether the slot array itself has length zero. -/
def is_empty (e : Equipments Item) : Bool :=
  e.equipments.isEmpty

/-- Rust: `fn has_modified_slots(&self) -> bool { self.modified_slots != 0 }`. -/
def has_modified_slots (e : Equipments Item) : Bool :=
  e.modified_slots != 0

/-- Rust: `fn iter_modified_slots(&self)`: for each `slot` in
`0..EQUIPMENT_SLOTS` with `modified_slots & (1 << slot) != 0`, yields
`EquipmentSlot::try_from(slot).unwrap()` (the `try_from` never fails for
`slot < 6`, so `Except.toOption` models the `unwrap`). -/
def iter_modified_slots (e : Equipments Item) : List EquipmentSlot :=
  (List.range EQUIPMENT_SLOTS).filterMap fun slot =>
    if e.modified_slots &&& (1 <<< slot) != 0 then
      (EquipmentSlot.tryFromUsize slot).toOption
    else
      none

/-- Rust: `fn iter_modified_equipments(&self)`: maps each modified slot to its
current entry, or to `EquipmentEntry { slot: slot.into(), item: None }` when
the slot is now empty. -/
def iter_modified_equipments (e : Equipments Item) : List (EquipmentEntry Item) :=
  e.iter_modified_slots.map fun slot =>
    match e.get slot with
    | some equip => equip
    | none => { slot := slot.toI8, item := none }

/-- Rust: `fn clear_modified_slot(&mut self) { self.modified_slots = 0 }`. -/
def clear_modified_slot (e : Equipments Item) : Equipments Item :=
  { e with modified_slots := 0 }

end Equipments

/-!
The differential broadcast pass `update_equipment`.  Its collaborators are
external to `equipment.rs` and are modelled by their interfaces: a world
instance is an equality-comparable handle, `ChunkPos::from_dvec3` of the
entity position is kept as a precomputed chunk position, a client view is a
containment predicate on chunk positions, and `write_packet` appends to the
client's outbound packet list.  ECS entity ids are `Nat`s.
-/

/-- A chunk position (`crate::view::ChunkPos`), an equality-comparable pair. -/
structure ChunkPos : Type where
  x : Int
  z : Int
deriving DecidableEq, Repr

/-- The fields of `McEntity` the pass reads: `instance()` (opaque handle),
`ChunkPos::from_dvec3(position())` (kept precomputed), `protocol_id()`. -/
structure McEntity : Type where
  inst : Nat
  chunkPos : ChunkPos
  protocolId : Int
deriving DecidableEq, Repr

/-- The `SetEquipment` packet: entity network id plus the list of diff
entries. -/
structure SetEquipment (Item : Type) : Type where
  entity_id : Int
  equipment : List (EquipmentEntry Item)
deriving DecidableEq, Repr

/-- The fields of `Client` the pass uses: `instance()` (opaque handle),
`view().contains(pos)` (a predicate on chunk positions), and the outbound
packet queue fed by `write_packet`. -/
structure Client (Item : Type) : Type where
  inst : Nat
  view : ChunkPos → Bool
  packets : List (SetEquipment Item)

/-- Rust: `client.write_packet(&pkt)` — enqueue one outbound packet. -/
def Client.write_packet {Item : Type} (c : Client Item) (pkt : SetEquipment Item) :
    Client Item :=
  { c with packets := c.packets ++ [pkt] }

/-- The body of `update_equipment`'s outer loop for one equipped entity:
skip when no modified slots; otherwise, for every client in the same
instance that is not the entity's own client and has the entity's chunk
position in view, write one `SetEquipment` packet with the modified
equipment list; finally clear the modified-slot mask. -/
def updateEquipmentEntity {Item : Type} (equiped_entity : Nat) (mc : McEntity)
    (equips : Equipments Item) (clients : List (Nat × Client Item)) :
    List (Nat × Client Item) × Equipments Item :=
  if !equips.has_modified_slots then
    (clients, equips)
  else
    (clients.map fun p =>
      if p.2.inst != mc.inst then
        p
      else if p.1 != equiped_entity && p.2.view mc.chunkPos then
        (p.1, p.2.write_packet
          { entity_id := mc.protocolId,
            equipment := equips.iter_modified_equipments })
      else
        p,
     equips.clear_modified_slot)

/-- Rust: `pub fn update_equipment(...)`: iterate the (change-detected)
equipped entities, threading the client list through each entity's body.
The query yields each entity's id, `McEntity`, and `Equipments`. -/
def update_equipment {Item : Type} :
    List (Nat × McEntity × Equipments Item) → List (Nat × Client Item) →
    List (Nat × Client Item) × List (Nat × McEntity × Equipments Item)
  | [], clients => (clients, [])
  | (eid, mc, eq) :: rest, clients =>
    ((update_equipment rest (updateEquipmentEntity eid mc eq clients).1).1,
     (eid, mc, (updateEquipmentEntity eid mc eq clients).2) ::
       (update_equipment rest (updateEquipmentEntity eid mc eq clients).1).2)

/-!
Well-formedness of an `Equipments` state, and reachability.  The Rust
struct's fields are private, so every state a client of the module can
observe is produced from `Equipments::new()`/`default()` by the public
mutators; `Reachable` captures exactly those states.
-/

namespace Equipments

variable {Item : Type}

/-- One slot of the array is well formed at index `i` when, if occupied, the
stored entry records `slot = i` and an actually-present item. -/
def wfEntry (i : Nat) : Option (EquipmentEntry Item) → Bool
  | none => true
  | some en => en.slot == (i : Int) && en.item.isSome

/-- The structural invariant of an `Equipments` state: the slot array has
exactly `EQUIPMENT_SLOTS = 6` entries and each occupied entry is stamped
with its own index and a present item. -/
def WF (e : Equipments Item) : Prop :=
  e.equipments.length = 6 ∧ ∀ i, i < 6 → wfEntry i (e.equipments.getD i none) = true

/-- States constructible through the public API from `Equipments::new()`. -/
inductive Reachable : Equipments Item → Prop where
  | new : Reachable Equipments.new
  | set (item : Item) (slot : EquipmentSlot) {e : Equipments Item} :
      Reachable e → Reachable (e.set item slot)
  | remove (slot : EquipmentSlot) {e : Equipments Item} :
      Reachable e → Reachable (e.remove slot).2
  | clear {e : Equipments Item} : Reachable e → Reachable e.clear
  | flush {e : Equipments Item} : Reachable e → Reachable e.clear_modified_slot

end Equipments

lemma EquipmentSlot.toUsize_lt (slot : EquipmentSlot) : slot.toUsize < 6 := by
  cases slot <;> decide

lemma List.getD_set_self {α : Type} (l : List α) (i : Nat) (a d : α)
    (h : i < l.length) : (l.set i a).getD i d = a := by
  simp [List.getD, List.getElem?_set_self, h]

lemma List.getD_set_ne {α : Type} (l : List α) {i j : Nat} (a d : α)
    (h : i ≠ j) : (l.set i a).getD j d = l.getD j d := by
  simp [List.getD, List.getElem?_set_ne h]

lemma List.getD_of_len_le {α : Type} (l : List α) {n : Nat} (d : α)
    (h : l.length ≤ n) : l.getD n d = d := by
  simp [List.getD, List.getElem?_eq_none h]

lemma Nat.testBit_pow_two (i j : Nat) : (2 ^ i).testBit j = decide (i = j) := by
  by_cases h : i = j
  · subst h; simp [Nat.testBit_two_pow_self]
  · simp [Nat.testBit_two_pow_of_ne h, h]

namespace Equipments

variable {Item : Type}

/-- The array part of `clearAux`: every slot comes back empty. -/
lemma clearAux_fst (l : List (Option (EquipmentEntry Item))) (m : Nat) :
    (clearAux l m).1 = List.replicate l.length none := by
  induction l generalizing m with
  | nil => simp [clearAux]
  | cons a rest ih => cases a <;> simp [clearAux, ih, List.replicate_succ]

/-- The mask part of `clearAux`: provided each stored entry is stamped with
its own position (offset by `k`), bit `j` of the result is bit `j` of the
incoming mask ORed with occupancy of position `j - k`. -/
lemma clearAux_snd_testBit (l : List (Option (EquipmentEntry Item))) :
    ∀ (m k j : Nat),
      (∀ p en, l.getD p none = some en → i8AsU8 en.slot % 8 = k + p) →
      Nat.testBit (clearAux l m).2 j =
        (Nat.testBit m j || (decide (k ≤ j) && (l.getD (j - k) none).isSome)) := by
  induction l with
  | nil =>
    intro m k j _
    simp [clearAux, List.getD]
  | cons a rest ih =>
    intro m k j H
    have Hrest : ∀ p en, rest.getD p none = some en → i8AsU8 en.slot % 8 = (k + 1) + p := by
      intro p en hp
      have h := H (p + 1) en (by simpa [List.getD] using hp)
      omega
    cases a with
    | none =>
      have ihr := ih m (k + 1) j Hrest
      simp only [clearAux]
      rw [ihr]
      rcases Nat.lt_trichotomy j k with hlt | heq | hgt
      · have h1 : ¬ (k ≤ j) := by omega
        have h2 : ¬ (k + 1 ≤ j) := by omega
        simp [h1, h2]
      · subst heq
        have h2 : ¬ (j + 1 ≤ j) := by omega
        have h3 : j - j = 0 := by omega
        simp [h2, h3, List.getD]
      · have h1 : k ≤ j := by omega
        have h2 : k + 1 ≤ j := by omega
        have h3 : j - k = (j - (k + 1)) + 1 := by omega
        simp [h1, h2, h3, List.getD]
    | some en =>
      have hk : i8AsU8 en.slot % 8 = k := by
        have h := H 0 en (by simp [List.getD])
        omega
      have ihr := ih (m ||| (1 <<< (i8AsU8 en.slot % 8))) (k + 1) j Hrest
      simp only [clearAux]
      rw [ihr, hk, Nat.one_shiftLeft, Nat.testBit_lor, Nat.testBit_pow_two]
      rcases Nat.lt_trichotomy j k with hlt | heq | hgt
      · have h1 : ¬ (k ≤ j) := by omega
        have h2 : ¬ (k + 1 ≤ j) := by omega
        have h4 : k ≠ j := by omega
        simp [h1, h2, h4]
      · subst heq
        have h2 : ¬ (j + 1 ≤ j) := by omega
        have h3 : j - j = 0 := by omega
        simp [h2, h3, List.getD]
      · have h1 : k ≤ j := by omega
        have h2 : k + 1 ≤ j := by omega
        have h3 : j - k = (j - (k + 1)) + 1 := by omega
        have h4 : k ≠ j := by omega
        simp [h1, h2, h3, h4, List.getD]

/-- In a well-formed state every stored entry is stamped with its index. -/
lemma WF_slots (e : Equipments Item) (hWF : WF e) :
    ∀ p en, e.equipments.getD p none = some en → i8AsU8 en.slot % 8 = 0 + p := by
  intro p en hp
  rcases hWF with ⟨hlen, hent⟩
  by_cases hp6 : p < 6
  · have h := hent p hp6
    rw [hp] at h
    simp [wfEntry] at h
    have hslot : en.slot = (p : Int) := h.1
    simp only [i8AsU8, hslot]
    omega
  · exfalso
    rw [List.getD_of_len_le e.equipments none (by omega)] at hp
    exact Option.noConfusion hp

/-- `clear` empties the whole slot array. -/
lemma clear_equipments (e : Equipments Item) :
    (clear e).equipments = List.replicate e.equipments.length none :=
  clearAux_fst _ _

/-- After `clear`, every `get` is `none`. -/
lemma clear_get (e : Equipments Item) (slot : EquipmentSlot) :
    (clear e).get slot = none := by
  simp only [get, clear_equipments, List.getD, List.get?_eq_getElem?,
    List.getElem?_replicate]
  split <;> simp

/-- After `clear` on a well-formed state, bit `j` of the modified mask is
its previous value ORed with the previous occupancy of slot `j`. -/
lemma clear_testBit (e : Equipments Item) (hWF : WF e) (j : Nat) :
    Nat.testBit (clear e).modified_slots j =
      (Nat.testBit e.modified_slots j || (e.equipments.getD j none).isSome) := by
  have h := clearAux_snd_testBit e.equipments e.modified_slots 0 j (WF_slots e hWF)
  simpa [clear] using h

end Equipments

namespace Equipments

variable {Item : Type}

lemma getD_replicate {α : Type} (n i : Nat) (d : α) :
    (List.replicate n d).getD i d = d := by
  simp only [List.getD, List.get?_eq_getElem?, List.getElem?_replicate]
  split <;> simp

/-- A fresh state is well formed. -/
lemma WF_new : WF (new : Equipments Item) := by
  refine ⟨rfl, ?_⟩
  intro i hi
  interval_cases i <;> rfl

/-- `set` preserves well-formedness: the stored entry is stamped with the
target index and holds `Some item`. -/
lemma WF_set (e : Equipments Item) (h : WF e) (item : Item) (slot : EquipmentSlot) :
    WF (e.set item slot) := by
  rcases h with ⟨hlen, hent⟩
  refine ⟨by simp [set, set_modified_slot, hlen], ?_⟩
  intro i hi
  simp only [set, set_modified_slot]
  by_cases his : slot.toUsize = i
  · subst his
    rw [List.getD_set_self _ _ _ _ (by rw [hlen]; exact slot.toUsize_lt)]
    simp [wfEntry]
  · rw [List.getD_set_ne _ _ _ his]
    exact hent i hi

/-- `remove` preserves well-formedness: it only empties a slot. -/
lemma WF_remove (e : Equipments Item) (h : WF e) (slot : EquipmentSlot) :
    WF (e.remove slot).2 := by
  rcases h with ⟨hlen, hent⟩
  unfold remove
  cases hg : e.equipments.getD slot.toUsize none with
  | none => exact ⟨hlen, hent⟩
  | some en =>
    refine ⟨by simp [set_modified_slot, hlen], ?_⟩
    intro i hi
    simp only [set_modified_slot]
    by_cases his : slot.toUsize = i
    · subst his
      rw [List.getD_set_self _ _ _ _ (by rw [hlen]; exact slot.toUsize_lt)]
      rfl
    · rw [List.getD_set_ne _ _ _ his]
      exact hent i hi

/-- `clear` preserves well-formedness: the array comes back all-`none`. -/
lemma WF_clear (e : Equipments Item) (h : WF e) : WF e.clear := by
  rcases h with ⟨hlen, hent⟩
  refine ⟨?_, ?_⟩
  · rw [clear_equipments, List.length_replicate, hlen]
  · intro i hi
    rw [clear_equipments, getD_replicate]
    rfl

/-- `clear_modified_slot` does not touch the slot array. -/
lemma WF_flush (e : Equipments Item) (h : WF e) : WF e.clear_modified_slot := h

/-- Every reachable state is well formed. -/
lemma WF_of_reachable {e : Equipments Item} (h : Reachable e) : WF e := by
  induction h with
  | new => exact WF_new
  | set item slot _ ih => exact WF_set _ ih item slot
  | remove slot _ ih => exact WF_remove _ ih slot
  | clear _ ih => exact WF_clear _ ih
  | flush _ ih => exact WF_flush _ ih

end Equipments

/-! Helper facts about the slot-code conversions. -/

lemma EquipmentSlot.tryFromU8_ge_six (id : Nat) (h : 6 ≤ id) :
    EquipmentSlot.tryFromU8 id = .error "Invalid value" := by
  match id, h with
  | n + 6, _ => rfl

lemma EquipmentSlot.tryFromUsize_toUsize (slot : EquipmentSlot) :
    EquipmentSlot.tryFromUsize slot.toUsize = .ok slot := by
  cases slot <;> rfl

/-- **C1** (code bug): the spec says `is_empty()` is true iff no slot is
occupied, but the code calls slice `is_empty()` on the fixed-size 6-element
slot array, which is never length zero.  A freshly created state has every
slot empty yet `is_empty()` returns `false`; indeed it returns `false` on
every reachable state. -/
theorem claim_C1_is_empty_bug :
    (Equipments.new : Equipments Nat).is_empty = false ∧
    (∀ slot, (Equipments.new : Equipments Nat).get slot = none) ∧
    (∀ (e : Equipments Nat), Equipments.Reachable e → e.is_empty = false) := by
  refine ⟨rfl, ?_, ?_⟩
  · intro slot; cases slot <;> rfl
  · intro e he
    have hlen := (Equipments.WF_of_reachable he).1
    rcases e with ⟨l, m⟩
    cases l with
    | nil => simp at hlen
    | cons a t => rfl

/-- **C1 witness**: evaluated on the concrete reachable state
`Equipments::new().set(0, Boots)`. -/
theorem claim_C1_is_empty_bug_witness :
    ((Equipments.new : Equipments Nat).set 0 .Boots).is_empty = false :=
  claim_C1_is_empty_bug.2.2 _ (.set 0 .Boots .new)

/-- **C6**: the slot-to-byte encoding is total and maps MainHand, OffHand,
Boots, Leggings, Chestplate, Helmet to 0–5; decoding a `u8` succeeds exactly
on 0–5 and yields the invalid-slot-code error on every other `u8` value; and
decoding the encoding of any slot returns that slot. -/
theorem claim_C6_slot_codes :
    (EquipmentSlot.MainHand.toU8 = 0 ∧ EquipmentSlot.OffHand.toU8 = 1 ∧
     EquipmentSlot.Boots.toU8 = 2 ∧ EquipmentSlot.Leggings.toU8 = 3 ∧
     EquipmentSlot.Chestplate.toU8 = 4 ∧ EquipmentSlot.Helmet.toU8 = 5) ∧
    (∀ slot : EquipmentSlot, EquipmentSlot.tryFromU8 slot.toU8 = .ok slot) ∧
    (∀ id : Nat, id < 256 →
      ((∃ slot, EquipmentSlot.tryFromU8 id = .ok slot) ↔ id ≤ 5)) ∧
    (∀ id : Nat, 6 ≤ id → id < 256 →
      EquipmentSlot.tryFromU8 id = .error "Invalid value") := by
  refine ⟨by decide, ?_, ?_, ?_⟩
  · intro slot; cases slot <;> rfl
  · intro id h256
    constructor
    · rintro ⟨slot, hs⟩
      by_contra h6
      rw [EquipmentSlot.tryFromU8_ge_six id (by omega)] at hs
      exact Except.noConfusion hs
    · intro h5
      interval_cases id <;> exact ⟨_, rfl⟩
  · intro id h6 _
    exact EquipmentSlot.tryFromU8_ge_six id h6

/-- **C6 witness**: evaluated at the concrete out-of-range code 7 and at the
round trip for Boots. -/
theorem claim_C6_slot_codes_witness :
    EquipmentSlot.tryFromU8 7 = .error "Invalid value" ∧
    EquipmentSlot.tryFromU8 EquipmentSlot.Boots.toU8 = .ok .Boots :=
  ⟨claim_C6_slot_codes.2.2.2 7 (by decide) (by decide),
   claim_C6_slot_codes.2.1 .Boots⟩

/-- **C10**: the `usize` and `i8` decoders truncate to a `u8` (reduce modulo
256) before range-checking: every negative `i8` is rejected, a `usize` is
accepted exactly when its value modulo 256 lies in 0–5, and in particular
`EquipmentSlot::try_from(256usize)` succeeds with MainHand. -/
theorem claim_C10_truncating_decoders :
    (∀ id : Int, -128 ≤ id → id < 0 →
      EquipmentSlot.tryFromI8 id = .error "Invalid value") ∧
    (∀ id : Nat,
      ((∃ slot, EquipmentSlot.tryFromUsize id = .ok slot) ↔ id % 256 ≤ 5)) ∧
    EquipmentSlot.tryFromUsize 256 = .ok .MainHand := by
  refine ⟨?_, ?_, rfl⟩
  · intro id hlo hhi
    unfold EquipmentSlot.tryFromI8
    exact EquipmentSlot.tryFromU8_ge_six _ (by omega)
  · intro id
    unfold EquipmentSlot.tryFromUsize
    constructor
    · rintro ⟨slot, hs⟩
      by_contra h6
      rw [EquipmentSlot.tryFromU8_ge_six (id % 256) (by omega)] at hs
      exact Except.noConfusion hs
    · intro h5
      have h : id % 256 ≤ 5 := h5
      generalize hk : id % 256 = k at h ⊢
      interval_cases k <;> exact ⟨_, rfl⟩

/-- **C10 witness**: evaluated at `i8` input `-1` (rejected) and `usize`
input `256` (accepted as MainHand). -/
theorem claim_C10_truncating_decoders_witness :
    EquipmentSlot.tryFromI8 (-1) = .error "Invalid value" ∧
    EquipmentSlot.tryFromUsize 256 = .ok .MainHand :=
  ⟨claim_C10_truncating_decoders.1 (-1) (by decide) (by decide),
   claim_C10_truncating_decoders.2.2⟩

/-! Behaviour of `set`/`remove` on the slot array. -/

lemma Equipments.get_set {Item : Type} (e : Equipments Item)
    (hlen : e.equipments.length = 6) (item : Item) (slot : EquipmentSlot) :
    (e.set item slot).get slot = some ⟨(slot.toUsize : Int), some item⟩ := by
  simp only [Equipments.set, Equipments.set_modified_slot, Equipments.get]
  exact List.getD_set_self _ _ _ _ (by rw [hlen]; exact slot.toUsize_lt)

lemma Equipments.remove_of_getD_none {Item : Type} (e : Equipments Item)
    (slot : EquipmentSlot) (h : e.equipments.getD slot.toUsize none = none) :
    e.remove slot = (none, e) := by
  unfold Equipments.remove
  rw [h]

lemma Equipments.remove_of_getD_some {Item : Type} (e : Equipments Item)
    (slot : EquipmentSlot) (en : EquipmentEntry Item)
    (h : e.equipments.getD slot.toUsize none = some en) :
    e.remove slot =
      (some en,
       Equipments.set_modified_slot
         { e with equipments := e.equipments.set slot.toUsize none } slot) := by
  unfold Equipments.remove
  rw [h]

/-- **C8**: for every slot `S`, item `I` and (constructible) starting state,
after `set(I, S)` the lookup `get(S)` returns the stored occupied entry
`EquipmentEntry { slot: S, item: Some(I) }` and bit `S` of the dirty mask is
set — also when `S` was already occupied, including by the same item. -/
theorem claim_C8_set_then_get {Item : Type} (e : Equipments Item)
    (h : Equipments.Reachable e) (item : Item) (slot : EquipmentSlot) :
    (e.set item slot).get slot = some ⟨(slot.toUsize : Int), some item⟩ ∧
    Nat.testBit (e.set item slot).modified_slots slot.toU8 = true := by
  constructor
  · exact Equipments.get_set e (Equipments.WF_of_reachable h).1 item slot
  · simp only [Equipments.set, Equipments.set_modified_slot, Nat.one_shiftLeft,
      Nat.testBit_lor, Nat.testBit_pow_two, EquipmentSlot.toUsize]
    simp

/-- **C8 witness**: evaluated on `Equipments::new().set(7, Boots)`, a state
in which Boots was already set (to 9) beforehand. -/
theorem claim_C8_set_then_get_witness :
    (((Equipments.new : Equipments Nat).set 9 .Boots).set 7 .Boots).get .Boots =
      some ⟨(EquipmentSlot.Boots.toUsize : Int), some 7⟩ ∧
    Nat.testBit (((Equipments.new : Equipments Nat).set 9 .Boots).set 7 .Boots).modified_slots
      EquipmentSlot.Boots.toU8 = true :=
  claim_C8_set_then_get _ (.set 9 .Boots .new) 7 .Boots

/-- **C2**: from any (constructible) state, `set(I, S)` then `remove(S)`
returns the occupied entry holding `I`; a second `remove(S)` on the
now-empty slot returns `None`, and afterwards bit `S` of the dirty mask is
(still) set. -/
theorem claim_C2_round_trip {Item : Type} (e : Equipments Item)
    (h : Equipments.Reachable e) (item : Item) (slot : EquipmentSlot) :
    ((e.set item slot).remove slot).1 = some ⟨(slot.toUsize : Int), some item⟩ ∧
    ((((e.set item slot).remove slot).2).remove slot).1 = none ∧
    Nat.testBit (((((e.set item slot).remove slot).2).remove slot).2).modified_slots
      slot.toU8 = true := by
  have hWF := Equipments.WF_of_reachable h
  have hlen : e.equipments.length = 6 := hWF.1
  have hget1 : (e.set item slot).equipments.getD slot.toUsize none
      = some ⟨(slot.toUsize : Int), some item⟩ :=
    Equipments.get_set e hlen item slot
  have hr1 : (e.set item slot).remove slot
      = (some ⟨(slot.toUsize : Int), some item⟩,
         Equipments.set_modified_slot
           { e.set item slot with
             equipments := (e.set item slot).equipments.set slot.toUsize none } slot) :=
    Equipments.remove_of_getD_some _ _ _ hget1
  have hlen1 : (e.set item slot).equipments.length = 6 := by
    simp [Equipments.set, Equipments.set_modified_slot, hlen]
  have hget2 : (((e.set item slot).remove slot).2).equipments.getD slot.toUsize none
      = none := by
    rw [hr1]
    simp only [Equipments.set_modified_slot]
    exact List.getD_set_self _ _ _ _ (by rw [hlen1]; exact slot.toUsize_lt)
  have hr2 : ((((e.set item slot).remove slot).2).remove slot)
      = (none, ((e.set item slot).remove slot).2) :=
    Equipments.remove_of_getD_none _ _ hget2
  refine ⟨by rw [hr1], by rw [hr2], ?_⟩
  rw [hr2, hr1]
  simp only [Equipments.set_modified_slot, Nat.one_shiftLeft, Nat.testBit_lor,
    Nat.testBit_pow_two, EquipmentSlot.toUsize]
  simp

/-- **C2 witness**: evaluated on `Equipments::new()` with item 5 in the
off-hand slot. -/
theorem claim_C2_round_trip_witness :
    (((Equipments.new : Equipments Nat).set 5 .OffHand).remove .OffHand).1 =
      some ⟨(EquipmentSlot.OffHand.toUsize : Int), some 5⟩ ∧
    (((((Equipments.new : Equipments Nat).set 5 .OffHand).remove .OffHand).2).remove
        .OffHand).1 = none ∧
    Nat.testBit
      (((((Equipments.new : Equipments Nat).set 5 .OffHand).remove .OffHand).2).remove
          .OffHand).2.modified_slots EquipmentSlot.OffHand.toU8 = true :=
  claim_C2_round_trip _ .new 5 .OffHand

lemma Equipments.iter_modified_slots_of_zero {Item : Type} (e : Equipments Item)
    (h : e.modified_slots = 0) : e.iter_modified_slots = [] := by
  simp only [Equipments.iter_modified_slots, h]
  decide

/-- **C7**: after `clear_dirty()` (`clear_modified_slot`) the drained change
sequence (`iter_modified_equipments`) is empty and `has_pending_changes()`
(`has_modified_slots`) is false; reads (`get`, the iterators) take the state
unchanged, so in the model this persists until the next mutation. -/
theorem claim_C7_flush_idempotent {Item : Type} (e : Equipments Item) :
    (e.clear_modified_slot).iter_modified_equipments = [] ∧
    (e.clear_modified_slot).has_modified_slots = false := by
  constructor
  · rw [Equipments.iter_modified_equipments,
      Equipments.iter_modified_slots_of_zero _ rfl]
    rfl
  · rfl

/-- **C9** (implicit invariant): in every reachable state the slot array has
exactly six entries, and an occupied entry at index `i` is stamped with
`slot = i` and an item that is present (`Some`); hence `clear`, which reads
the stored `slot` field to pick the dirty bit, always marks the correct
slot. -/
theorem claim_C9_stored_slot_invariant {Item : Type} (e : Equipments Item)
    (h : Equipments.Reachable e) :
    e.equipments.length = 6 ∧
    ∀ i en, e.equipments.getD i none = some en →
      en.slot = (i : Int) ∧ ∃ it, en.item = some it := by
  have hWF := Equipments.WF_of_reachable h
  refine ⟨hWF.1, ?_⟩
  intro i en hen
  by_cases hi : i < 6
  · have hw := hWF.2 i hi
    rw [hen] at hw
    simp [Equipments.wfEntry] at hw
    exact ⟨hw.1, Option.isSome_iff_exists.mp hw.2⟩
  · rw [List.getD_of_len_le _ _ (by rw [hWF.1]; omega)] at hen
    exact Option.noConfusion hen

/-- **C9 witness**: evaluated on the reachable state
`Equipments::new().set(3, Helmet)`. -/
theorem claim_C9_stored_slot_invariant_witness :
    ((Equipments.new : Equipments Nat).set 3 .Helmet).equipments.length = 6 ∧
    ∀ i en, ((Equipments.new : Equipments Nat).set 3 .Helmet).equipments.getD i none
        = some en → en.slot = (i : Int) ∧ ∃ it, en.item = some it :=
  claim_C9_stored_slot_invariant _ (.set 3 .Helmet .new)

/-- The state used to refute C4 as stated: built through the public API,
main-hand was set and then removed (leaving its dirty bit set while the slot
is empty), then boots were set. -/
def c4State : Equipments Nat :=
  ((((Equipments.new : Equipments Nat).set 0 .MainHand).remove .MainHand).2).set 1 .Boots

/-- **C4 counterexample**: `c4State` has an occupied slot (boots), slot 0
(main-hand) is empty before the `clear`, yet after `clear()` bit 0 of the
dirty mask is set — the claim says every previously-empty slot's bit is
unset.  `clear` only ORs bits into the mask and never clears stale ones. -/
theorem claim_C4_counterexample :
    c4State.equipments.any Option.isSome = true ∧
    c4State.equipments.getD 0 none = none ∧
    Nat.testBit c4State.clear.modified_slots 0 = true := by
  decide

/-- **C4 (amended)**: for every reachable state with at least one occupied
slot, after `clear()` every previously-occupied slot's bit is set in the
dirty mask, every previously-empty slot's bit keeps its previous value
(rather than being unset), and `get` returns `None` for every slot. -/
theorem claim_C4_clear_amended {Item : Type} (e : Equipments Item)
    (h : Equipments.Reachable e) (hocc : e.equipments.any Option.isSome = true) :
    (∀ i, (e.equipments.getD i none).isSome = true →
        Nat.testBit e.clear.modified_slots i = true) ∧
    (∀ i, (e.equipments.getD i none).isSome = false →
        Nat.testBit e.clear.modified_slots i = Nat.testBit e.modified_slots i) ∧
    (∀ slot, e.clear.get slot = none) := by
  have hWF := Equipments.WF_of_reachable h
  refine ⟨?_, ?_, Equipments.clear_get e⟩
  · intro i hi
    rw [Equipments.clear_testBit e hWF, hi]
    simp
  · intro i hi
    rw [Equipments.clear_testBit e hWF, hi]
    simp

/-- **C4 witness**: evaluated on the reachable state
`Equipments::new().set(7, Boots)`: after `clear()`, bit 2 is set. -/
theorem claim_C4_clear_amended_witness :
    Nat.testBit ((Equipments.new : Equipments Nat).set 7 .Boots).clear.modified_slots 2
      = true :=
  (claim_C4_clear_amended _ (.set 7 .Boots .new) (by decide)).1 2 (by decide)

/-- A slot whose dirty bit is set is produced by `iter_modified_slots`. -/
lemma Equipments.mem_iter_modified_slots {Item : Type} (e : Equipments Item)
    (slot : EquipmentSlot) (h : Nat.testBit e.modified_slots slot.toUsize = true) :
    slot ∈ e.iter_modified_slots := by
  have hand : ((e.modified_slots &&& (1 <<< slot.toUsize)) != 0) = true := by
    simp only [Nat.one_shiftLeft, Nat.and_two_pow, h, Bool.toNat_true, one_mul,
      bne_iff_ne, ne_eq]
    exact (Nat.two_pow_pos slot.toUsize).ne'
  unfold Equipments.iter_modified_slots
  refine List.mem_filterMap.mpr ⟨slot.toUsize, List.mem_range.mpr slot.toUsize_lt, ?_⟩
  rw [if_pos hand, EquipmentSlot.tryFromUsize_toUsize]
  rfl

/-- **C5**: after `clear()`, the drained change sequence contains, for every
slot that was occupied before the clear, an entry carrying that slot's code
and an explicit empty item (`item = None`) — the slot is present with an
empty marker, not omitted. -/
theorem claim_C5_clear_then_drain {Item : Type} (e : Equipments Item)
    (h : Equipments.Reachable e) (i : Nat)
    (hocc : (e.equipments.getD i none).isSome = true) :
    (⟨(i : Int), none⟩ : EquipmentEntry Item) ∈ e.clear.iter_modified_equipments := by
  have hWF := Equipments.WF_of_reachable h
  have hi6 : i < 6 := by
    by_contra hge
    rw [List.getD_of_len_le _ _ (by rw [hWF.1]; omega)] at hocc
    simp at hocc
  obtain ⟨slot, hus, hi8⟩ : ∃ slot : EquipmentSlot,
      slot.toUsize = i ∧ slot.toI8 = (i : Int) := by
    interval_cases i
    · exact ⟨.MainHand, rfl, rfl⟩
    · exact ⟨.OffHand, rfl, rfl⟩
    · exact ⟨.Boots, rfl, rfl⟩
    · exact ⟨.Leggings, rfl, rfl⟩
    · exact ⟨.Chestplate, rfl, rfl⟩
    · exact ⟨.Helmet, rfl, rfl⟩
  have hbit : Nat.testBit e.clear.modified_slots slot.toUsize = true := by
    rw [Equipments.clear_testBit e hWF, hus, hocc]
    simp
  have hmem := Equipments.mem_iter_modified_slots e.clear slot hbit
  unfold Equipments.iter_modified_equipments
  refine List.mem_map.mpr ⟨slot, hmem, ?_⟩
  simp [Equipments.clear_get, hi8]

/-- **C5 witness**: evaluated on the reachable state
`Equipments::new().set(7, Leggings)`: after `clear()`, the drained sequence
contains the explicit empty marker for slot code 3. -/
theorem claim_C5_clear_then_drain_witness :
    (⟨(3 : Int), none⟩ : EquipmentEntry Nat) ∈
      ((Equipments.new : Equipments Nat).set 7 .Leggings).clear.iter_modified_equipments :=
  claim_C5_clear_then_drain _ (.set 7 .Leggings .new) 3 (by decide)

/-- With exactly the boots bit dirty and boots holding `X`, the diff list is
the single entry `(slot 2, Some X)`. -/
lemma Equipments.iter_modified_equipments_boots {Item : Type} (e : Equipments Item)
    (X : Item) (h4 : e.modified_slots = 4)
    (hb : e.equipments.getD 2 none = some ⟨2, some X⟩) :
    e.iter_modified_equipments = [⟨2, some X⟩] := by
  have hslots : e.iter_modified_slots = [.Boots] := by
    simp only [Equipments.iter_modified_slots, h4]
    decide
  have hget : e.get .Boots = some ⟨2, some X⟩ := hb
  unfold Equipments.iter_modified_equipments
  rw [hslots]
  simp only [List.map_cons, List.map_nil]
  rw [hget]

/-- The per-client branch of the loop body, flattened: a client receives the
packet exactly when it is in the same instance, is not the equipped entity's
own client, and has the entity's chunk position in view. -/
lemma updateEntity_client_case {Item : Type} (mc : McEntity) (E : Nat)
    (w : SetEquipment Item) (p : Nat × Client Item) :
    (if p.2.inst != mc.inst then p
     else if p.1 != E && p.2.view mc.chunkPos then (p.1, p.2.write_packet w) else p)
    = (if p.2.inst == mc.inst && (p.1 != E && p.2.view mc.chunkPos) then
        (p.1, p.2.write_packet w) else p) := by
  cases hA : (p.2.inst == mc.inst) <;> cases hB : (p.1 != E) <;>
    cases hV : p.2.view mc.chunkPos <;> simp [bne, hA, hB, hV]

/-- **C3**: if entity `E`'s equipment state has exactly slot code 2 (boots)
dirty, holding item `X`, then one run of the broadcast pass over `E` sends
exactly one diff packet — carrying `E`'s network id and the single entry
`(slot 2, Some X)` — to each client that is in `E`'s instance, is not `E`'s
own client, and has `E`'s chunk position in view; every other client's
packet queue is untouched; and afterwards `E`'s dirty mask is 0. -/
theorem claim_C3_broadcast {Item : Type} (E : Nat) (mc : McEntity)
    (equips : Equipments Item) (clients : List (Nat × Client Item)) (X : Item)
    (h4 : equips.modified_slots = 4)
    (hb : equips.equipments.getD 2 none = some ⟨2, some X⟩) :
    (update_equipment [(E, mc, equips)] clients).1 =
      clients.map (fun p =>
        if p.2.inst == mc.inst && (p.1 != E && p.2.view mc.chunkPos) then
          (p.1, p.2.write_packet
            { entity_id := mc.protocolId, equipment := [⟨2, some X⟩] })
        else p) ∧
    ∀ eid mc2 eq2, (eid, mc2, eq2) ∈ (update_equipment [(E, mc, equips)] clients).2 →
      eq2.modified_slots = 0 := by
  have hmod : equips.has_modified_slots = true := by
    simp [Equipments.has_modified_slots, h4]
  have hiter := Equipments.iter_modified_equipments_boots equips X h4 hb
  constructor
  · simp only [update_equipment, updateEquipmentEntity, hmod, hiter, Bool.not_true,
      Bool.false_eq_true, if_false]
    refine congrArg (fun f => List.map f clients) ?_
    funext p
    exact updateEntity_client_case mc E _ p
  · intro eid mc2 eq2 hm
    simp only [update_equipment, updateEquipmentEntity, hmod, Bool.not_true,
      Bool.false_eq_true, if_false, List.mem_singleton] at hm
    rw [show eq2 = equips.clear_modified_slot from congrArg (Prod.snd ∘ Prod.snd) hm]
    rfl

/-- Concrete scenario data for the C3 witness: entity 99 in instance 0 at
the origin chunk, boots dirty with item 7; client 10 is an eligible
observer, client 99 is the entity's own client, client 11 is in another
instance. -/
def c3Mc : McEntity :=
  { inst := 0, chunkPos := { x := 0, z := 0 }, protocolId := 77 }

def c3Equips : Equipments Nat :=
  { equipments := [none, none, some { slot := 2, item := some 7 }, none, none, none],
    modified_slots := 4 }

def c3Clients : List (Nat × Client Nat) :=
  [(10, { inst := 0, view := fun _ => true, packets := [] }),
   (99, { inst := 0, view := fun _ => true, packets := [] }),
   (11, { inst := 1, view := fun _ => true, packets := [] })]

/-- **C3 witness**: the broadcast pass evaluated on the concrete scenario. -/
theorem claim_C3_broadcast_witness :
    (update_equipment [(99, c3Mc, c3Equips)] c3Clients).1 =
      c3Clients.map (fun p =>
        if p.2.inst == c3Mc.inst && (p.1 != 99 && p.2.view c3Mc.chunkPos) then
          (p.1, p.2.write_packet
            { entity_id := c3Mc.protocolId, equipment := [⟨2, some 7⟩] })
        else p) :=
  (claim_C3_broadcast 99 c3Mc c3Equips c3Clients 7 rfl rfl).1
